import Mathlib

/-!
Verification development for the reStrike VTA ingestion pipeline
(tokenizer, stream decoder, match-state reducer) and its UI components.
The protocol pipeline is modelled from the specification of the wire
format and pipeline behaviour; the UI components are embedded from
`src/ui/src/App.tsx` and `src/ui/src/components/Sidebar.tsx`.
-/

namespace ReStrike

/-- Character for a decimal digit value. -/
def digitChar (d : Nat) : Char := Char.ofNat (48 + d)

/-- Decimal digit value of a character, if it is a digit. -/
def charDigit (c : Char) : Option Nat :=
  if 48 ≤ c.toNat ∧ c.toNat ≤ 57 then some (c.toNat - 48) else none

/-- Fuelled extraction of decimal digits, least significant first. -/
def natDigitsRevAux : Nat → Nat → List Nat
  | 0, n => [n % 10]
  | fuel + 1, n => if n < 10 then [n] else (n % 10) :: natDigitsRevAux fuel (n / 10)

/-- Decimal digits of a natural number, least significant first. -/
def natDigitsRev (n : Nat) : List Nat := natDigitsRevAux n n

/-- Characters of the decimal rendering of a natural number. -/
def digitsChars (n : Nat) : List Char := ((natDigitsRev n).reverse).map digitChar

/-- Decimal rendering of a natural number, as used on the wire. -/
def renderNat (n : Nat) : String := ⟨digitsChars n⟩

/-- Value of a most-significant-first digit list. -/
def digitsVal (ds : List Nat) : Nat := ds.foldl (fun a d => a * 10 + d) 0

/-- Accumulating decimal parser over characters. -/
def parseDigitsAux : List Char → Nat → Option Nat
  | [], acc => some acc
  | c :: cs, acc =>
    match charDigit c with
    | some d => parseDigitsAux cs (acc * 10 + d)
    | none => none

/-- Parse a non-empty all-digit character list as a natural number. -/
def parseDigits : List Char → Option Nat
  | [] => none
  | c :: cs => parseDigitsAux (c :: cs) 0

/-- Modelled from the spec: integer fields must parse as non-negative
decimal integers. -/
def parseNat (s : String) : Option Nat := parseDigits s.data

/-- Modelled from the spec: clock fields accept mm:ss or bare seconds;
both normalize to a duration (in seconds). -/
def parseClock (s : String) : Option Nat :=
  let cs := s.data
  let a := cs.takeWhile (fun c => c != ':')
  match cs.dropWhile (fun c => c != ':') with
  | [] => parseDigits a
  | _ :: rest =>
    match parseDigits a, parseDigits rest with
    | some m, some ss => some (m * 60 + ss)
    | _, _ => none

/-- Modelled from the spec: the two athletes addressed by per-athlete tags. -/
inductive Athlete
  | one
  | two
deriving DecidableEq

/-- Modelled from the spec: the three rounds addressed by sub-score tags. -/
inductive RoundIdx
  | r1
  | r2
  | r3
deriving DecidableEq

/-- Modelled from the spec: the slot addressed by an injury statement;
the unidentified slot is distinct from athlete 1 and athlete 2. -/
inductive InjTarget
  | ath1
  | ath2
  | unid
deriving DecidableEq

/-- Modelled from the spec: optional trailing flag of an injury statement. -/
inductive InjuryFlag
  | ijShow
  | ijHide
  | ijReset
deriving DecidableEq

/-- Modelled from the spec: optional trailing flag of a clock statement. -/
inductive ClockFlag
  | start
  | stop
deriving DecidableEq

/-- Modelled from the spec: the party a challenge statement addresses. -/
inductive ChParty
  | referee
  | ath1
  | ath2
deriving DecidableEq

/-- Modelled from the spec: the payload of a challenge statement — absence
of fields is a request, -1 cancels, 0 denies, 1 accepts with an optional
won/lost outcome. -/
inductive ChallengeResult
  | requested
  | canceled
  | denied
  | accepted (outcome : Option Bool)
deriving DecidableEq

/-- Modelled from the spec: the typed events produced by the stream
decoder, one variant per recognized statement kind. -/
inductive StreamEvent
  | point (a : Athlete) (v : Nat)
  | hitLevel (a : Athlete) (v : Nat)
  | warningGamJeom (a : Athlete) (count : Nat)
  | injury (t : InjTarget) (seconds : Nat) (flag : Option InjuryFlag)
  | challenge (p : ChParty) (r : ChallengeResult)
  | breakClock (seconds : Nat) (ended : Bool)
  | roundWinners (a b c : Nat)
  | matchWinner (winName : String) (clsScore : Option String)
  | provisionalWinner (side : String)
  | clock (seconds : Nat) (flag : Option ClockFlag)
  | round (n : Nat)
  | matchLoaded
  | athleteInfo (a : Athlete) (short long country : String)
  | matchMeta (fields : List String)
  | subScore (a : Athlete) (r : RoundIdx) (v : Nat)
  | score (a : Athlete) (v : Nat)
  | advantageVote (v : Nat)
  | ready
  | connection (port : Nat) (connected : Bool)
deriving DecidableEq

/-- Modelled from the spec: the static registry of recognized stream tags. -/
inductive Tag
  | pt1 | pt2 | hl1 | hl2 | wg1 | wg2 | ij1 | ij2 | ij0
  | ch0 | ch1 | ch2 | brk | wrd | wmh | win | clk | rnd
  | mch | at1 | at2 | s11 | s21 | s12 | s22 | s13 | s23
  | sc1 | sc2 | avt | pre | rdy
deriving DecidableEq

/-- Wire string of a registry tag. -/
def tagStr : Tag → String
  | .pt1 => "pt1" | .pt2 => "pt2" | .hl1 => "hl1" | .hl2 => "hl2"
  | .wg1 => "wg1" | .wg2 => "wg2" | .ij1 => "ij1" | .ij2 => "ij2"
  | .ij0 => "ij0" | .ch0 => "ch0" | .ch1 => "ch1" | .ch2 => "ch2"
  | .brk => "brk" | .wrd => "wrd" | .wmh => "wmh" | .win => "win"
  | .clk => "clk" | .rnd => "rnd" | .mch => "mch" | .at1 => "at1"
  | .at2 => "at2" | .s11 => "s11" | .s21 => "s21" | .s12 => "s12"
  | .s22 => "s22" | .s13 => "s13" | .s23 => "s23" | .sc1 => "sc1"
  | .sc2 => "sc2" | .avt => "avt" | .pre => "pre" | .rdy => "rdy"

/-- Modelled from the spec: registry lookup of a token as a stream tag. -/
def parseTag (t : String) : Option Tag :=
  if t = "pt1" then some .pt1 else if t = "pt2" then some .pt2 else
  if t = "hl1" then some .hl1 else if t = "hl2" then some .hl2 else
  if t = "wg1" then some .wg1 else if t = "wg2" then some .wg2 else
  if t = "ij1" then some .ij1 else if t = "ij2" then some .ij2 else
  if t = "ij0" then some .ij0 else if t = "ch0" then some .ch0 else
  if t = "ch1" then some .ch1 else if t = "ch2" then some .ch2 else
  if t = "brk" then some .brk else if t = "wrd" then some .wrd else
  if t = "wmh" then some .wmh else if t = "win" then some .win else
  if t = "clk" then some .clk else if t = "rnd" then some .rnd else
  if t = "mch" then some .mch else if t = "at1" then some .at1 else
  if t = "at2" then some .at2 else if t = "s11" then some .s11 else
  if t = "s21" then some .s21 else if t = "s12" then some .s12 else
  if t = "s22" then some .s22 else if t = "s13" then some .s13 else
  if t = "s23" then some .s23 else if t = "sc1" then some .sc1 else
  if t = "sc2" then some .sc2 else if t = "avt" then some .avt else
  if t = "pre" then some .pre else if t = "rdy" then some .rdy else
  none

/-- Modelled from the spec: a tokenized statement — a recognized tag with
its fields, or a plain-text connection notice matched as a special kind. -/
inductive Statement
  | tagged (tag : String) (fields : List String)
  | connNotice (port : Nat) (connected : Bool)
deriving DecidableEq

/-- Modelled from the spec: an injury timer with its show/hide flag. -/
structure InjuryTimer where
  seconds : Nat
  visible : Bool
deriving DecidableEq

/-- Modelled from the spec: per-party challenge status — a single status
value per party, replaced wholesale by each new challenge statement. -/
inductive ChallengeStatus
  | idle
  | pending
  | canceled
  | denied
  | accepted (outcome : Option Bool)
deriving DecidableEq

/-- Modelled from the spec: static athlete identity fields carried by an
athlete-info statement. -/
structure AthleteCard where
  short : String
  long : String
  country : String
deriving DecidableEq

/-- Modelled from the spec: the single mutable aggregate of live match
state — identities, round, clock, sub-scores, totals, warnings, injury
timers, challenges, break clock, round winners, winners, connection. -/
structure MatchState where
  athlete1 : Option AthleteCard
  athlete2 : Option AthleteCard
  meta : Option (List String)
  roundNum : Nat
  clockSeconds : Nat
  clockRunning : Bool
  s11 : Nat
  s21 : Nat
  s12 : Nat
  s22 : Nat
  s13 : Nat
  s23 : Nat
  sc1 : Nat
  sc2 : Nat
  wg1 : Nat
  wg2 : Nat
  inj1 : InjuryTimer
  inj2 : InjuryTimer
  inj0 : InjuryTimer
  ch0 : ChallengeStatus
  ch1 : ChallengeStatus
  ch2 : ChallengeStatus
  breakSeconds : Nat
  breakEnded : Bool
  roundWinners : List Nat
  provisionalWinner : Option String
  winnerName : Option String
  winnerScore : Option String
  advVote : Nat
  hl1 : Nat
  hl2 : Nat
  lastPoint : Option (Athlete × Nat)
  readyFlag : Bool
  connected : Bool
  connPort : Nat
deriving DecidableEq

/-- Modelled from the spec: the fresh match state — round-winner entries
default to 0 (undecided), scores and warnings zero, clocks zero and not
running, no identities, no winners. -/
def initialState : MatchState where
  athlete1 := none
  athlete2 := none
  meta := none
  roundNum := 0
  clockSeconds := 0
  clockRunning := false
  s11 := 0
  s21 := 0
  s12 := 0
  s22 := 0
  s13 := 0
  s23 := 0
  sc1 := 0
  sc2 := 0
  wg1 := 0
  wg2 := 0
  inj1 := ⟨0, false⟩
  inj2 := ⟨0, false⟩
  inj0 := ⟨0, false⟩
  ch0 := .idle
  ch1 := .idle
  ch2 := .idle
  breakSeconds := 0
  breakEnded := false
  roundWinners := [0, 0, 0]
  provisionalWinner := none
  winnerName := none
  winnerScore := none
  advVote := 0
  hl1 := 0
  hl2 := 0
  lastPoint := none
  readyFlag := false
  connected := false
  connPort := 0

/-- Apply an injury statement to one timer slot. -/
def applyInjury (t : InjuryTimer) (seconds : Nat) (flag : Option InjuryFlag) : InjuryTimer :=
  match flag with
  | none => ⟨seconds, t.visible⟩
  | some .ijShow => ⟨seconds, true⟩
  | some .ijHide => ⟨seconds, false⟩
  | some .ijReset => ⟨0, t.visible⟩

/-- Challenge status resulting from a challenge statement. -/
def challengeStatusOf : ChallengeResult → ChallengeStatus
  | .requested => .pending
  | .canceled => .canceled
  | .denied => .denied
  | .accepted o => .accepted o

/-- Modelled from the spec: the deterministic pure match-state reducer.
Point and hit-level events are informational; scores are authoritative
only via sub-score and score snapshots; warnings, round winners and
challenge status are snapshots; MatchLoaded discards the state and starts
a fresh one. -/
def reduce (s : MatchState) (e : StreamEvent) : MatchState :=
  match e with
  | .point a v => { s with lastPoint := some (a, v) }
  | .hitLevel a v =>
    match a with
    | .one => { s with hl1 := v }
    | .two => { s with hl2 := v }
  | .warningGamJeom a n =>
    match a with
    | .one => { s with wg1 := n }
    | .two => { s with wg2 := n }
  | .injury t seconds flag =>
    match t with
    | .ath1 => { s with inj1 := applyInjury s.inj1 seconds flag }
    | .ath2 => { s with inj2 := applyInjury s.inj2 seconds flag }
    | .unid => { s with inj0 := applyInjury s.inj0 seconds flag }
  | .challenge p r =>
    match p with
    | .referee => { s with ch0 := challengeStatusOf r }
    | .ath1 => { s with ch1 := challengeStatusOf r }
    | .ath2 => { s with ch2 := challengeStatusOf r }
  | .breakClock seconds ended => { s with breakSeconds := seconds, breakEnded := ended }
  | .roundWinners a b c => { s with roundWinners := [a, b, c] }
  | .matchWinner n sc =>
    { s with winnerName := some n,
             winnerScore := match sc with | some v => some v | none => s.winnerScore }
  | .provisionalWinner side => { s with provisionalWinner := some side }
  | .clock seconds flag =>
    { s with clockSeconds := seconds,
             clockRunning := match flag with
               | some .start => true
               | some .stop => false
               | none => s.clockRunning }
  | .round n => { s with roundNum := n }
  | .matchLoaded => initialState
  | .athleteInfo a short long country =>
    match a with
    | .one => { s with athlete1 := some ⟨short, long, country⟩ }
    | .two => { s with athlete2 := some ⟨short, long, country⟩ }
  | .matchMeta fields => { s with meta := some fields }
  | .subScore a r v =>
    match a, r with
    | .one, .r1 => { s with s11 := v }
    | .two, .r1 => { s with s21 := v }
    | .one, .r2 => { s with s12 := v }
    | .two, .r2 => { s with s22 := v }
    | .one, .r3 => { s with s13 := v }
    | .two, .r3 => { s with s23 := v }
  | .score a v =>
    match a with
    | .one => { s with sc1 := v }
    | .two => { s with sc2 := v }
  | .advantageVote v => { s with advVote := v }
  | .ready => { s with readyFlag := true }
  | .connection port c => { s with connected := c, connPort := port }

/-- Modelled from the spec: folding an ordered event sequence over the
fresh initial state. -/
def runEvents (evs : List StreamEvent) : MatchState :=
  evs.foldl reduce initialState

/-- Modelled from the spec: the decoder error taxonomy for a statement. -/
inductive DecodeError
  | unknownTag
  | arityMismatch
  | invalidField
deriving DecidableEq

/-- Decode a single required non-negative integer field. -/
def decode1Nat (fs : List String) (k : Nat → StreamEvent) : Except DecodeError StreamEvent :=
  match fs with
  | [f] =>
    match parseNat f with
    | some n => .ok (k n)
    | none => .error .invalidField
  | _ => .error .arityMismatch

/-- Decode a clock value with an optional trailing flag field. -/
def decodeClockWith (fs : List String) (flags : String → Option α)
    (k : Nat → Option α → StreamEvent) : Except DecodeError StreamEvent :=
  match fs with
  | [c] =>
    match parseClock c with
    | some n => .ok (k n none)
    | none => .error .invalidField
  | [c, f] =>
    match parseClock c, flags f with
    | some n, some fl => .ok (k n (some fl))
    | _, _ => .error .invalidField
  | _ => .error .arityMismatch

/-- Recognized injury flags. -/
def injuryFlagOf (f : String) : Option InjuryFlag :=
  if f = "show" then some .ijShow else
  if f = "hide" then some .ijHide else
  if f = "reset" then some .ijReset else none

/-- Recognized main-clock flags. -/
def clockFlagOf (f : String) : Option ClockFlag :=
  if f = "start" then some .start else
  if f = "stop" then some .stop else none

/-- Decode the fields of a challenge statement. -/
def decodeChallenge (p : ChParty) (fs : List String) : Except DecodeError StreamEvent :=
  match fs with
  | [] => .ok (.challenge p .requested)
  | [f] =>
    if f = "-1" then .ok (.challenge p .canceled) else
    if f = "0" then .ok (.challenge p .denied) else
    if f = "1" then .ok (.challenge p (.accepted none)) else
    .error .invalidField
  | [f, o] =>
    if f = "1" then
      if o = "0" then .ok (.challenge p (.accepted (some false))) else
      if o = "1" then .ok (.challenge p (.accepted (some true))) else
      .error .invalidField
    else .error .invalidField
  | _ => .error .arityMismatch

/-- Modelled from the spec: the per-tag decoder bodies — each validates
field count and field formats and yields a typed event or a decode
error. -/
def decodeTagged (tg : Tag) (fs : List String) : Except DecodeError StreamEvent :=
  match tg with
  | .pt1 => decode1Nat fs (.point .one)
  | .pt2 => decode1Nat fs (.point .two)
  | .hl1 => decode1Nat fs (.hitLevel .one)
  | .hl2 => decode1Nat fs (.hitLevel .two)
  | .wg1 => decode1Nat fs (.warningGamJeom .one)
  | .wg2 => decode1Nat fs (.warningGamJeom .two)
  | .ij1 => decodeClockWith fs injuryFlagOf (.injury .ath1)
  | .ij2 => decodeClockWith fs injuryFlagOf (.injury .ath2)
  | .ij0 => decodeClockWith fs injuryFlagOf (.injury .unid)
  | .ch0 => decodeChallenge .referee fs
  | .ch1 => decodeChallenge .ath1 fs
  | .ch2 => decodeChallenge .ath2 fs
  | .brk =>
    match fs with
    | [c] =>
      match parseClock c with
      | some n => .ok (.breakClock n false)
      | none => .error .invalidField
    | [c, f] =>
      match parseClock c with
      | some n => if f = "stopEnd" then .ok (.breakClock n true) else .error .invalidField
      | none => .error .invalidField
    | _ => .error .arityMismatch
  | .wrd =>
    match fs with
    | [m1, a, m2, b, m3, c] =>
      if m1 = "rd1" ∧ m2 = "rd2" ∧ m3 = "rd3" then
        match parseNat a, parseNat b, parseNat c with
        | some x, some y, some z => .ok (.roundWinners x y z)
        | _, _, _ => .error .invalidField
      else .error .invalidField
    | _ => .error .arityMismatch
  | .wmh =>
    match fs with
    | [n] => .ok (.matchWinner n none)
    | [n, sc] => .ok (.matchWinner n (some sc))
    | _ => .error .arityMismatch
  | .win =>
    match fs with
    | [side] => .ok (.provisionalWinner side)
    | _ => .error .arityMismatch
  | .clk => decodeClockWith fs clockFlagOf .clock
  | .rnd => decode1Nat fs .round
  | .mch => .ok (.matchMeta fs)
  | .at1 =>
    match fs with
    | [a, b, c] => .ok (.athleteInfo .one a b c)
    | _ => .error .arityMismatch
  | .at2 =>
    match fs with
    | [a, b, c] => .ok (.athleteInfo .two a b c)
    | _ => .error .arityMismatch
  | .s11 => decode1Nat fs (.subScore .one .r1)
  | .s21 => decode1Nat fs (.subScore .two .r1)
  | .s12 => decode1Nat fs (.subScore .one .r2)
  | .s22 => decode1Nat fs (.subScore .two .r2)
  | .s13 => decode1Nat fs (.subScore .one .r3)
  | .s23 => decode1Nat fs (.subScore .two .r3)
  | .sc1 => decode1Nat fs (.score .one)
  | .sc2 => decode1Nat fs (.score .two)
  | .avt => decode1Nat fs .advantageVote
  | .pre =>
    match fs with
    | [f] => if f = "FightLoaded" then .ok .matchLoaded else .error .invalidField
    | _ => .error .arityMismatch
  | .rdy =>
    match fs with
    | [f] => if f = "FightReady" then .ok .ready else .error .invalidField
    | _ => .error .arityMismatch

/-- Modelled from the spec: the stream decoder — the tag selects the
decoder; an unrecognized tag is an UnknownTag error; connection notices
decode to connection events. -/
def decode (st : Statement) : Except DecodeError StreamEvent :=
  match st with
  | .connNotice p c => .ok (.connection p c)
  | .tagged t fs =>
    match parseTag t with
    | some tg => decodeTagged tg fs
    | none => .error .unknownTag

/-- Modelled from the spec: canonical wire serialization of an event,
one statement per event; clocks are rendered as bare seconds (a form the
decoder accepts and normalizes). -/
def serialize (e : StreamEvent) : Statement :=
  match e with
  | .point a v => .tagged (tagStr (match a with | .one => .pt1 | .two => .pt2)) [renderNat v]
  | .hitLevel a v => .tagged (tagStr (match a with | .one => .hl1 | .two => .hl2)) [renderNat v]
  | .warningGamJeom a n => .tagged (tagStr (match a with | .one => .wg1 | .two => .wg2)) [renderNat n]
  | .injury t seconds flag =>
    .tagged (tagStr (match t with | .ath1 => .ij1 | .ath2 => .ij2 | .unid => .ij0))
      (renderNat seconds ::
        match flag with
        | none => []
        | some .ijShow => ["show"]
        | some .ijHide => ["hide"]
        | some .ijReset => ["reset"])
  | .challenge p r =>
    .tagged (tagStr (match p with | .referee => .ch0 | .ath1 => .ch1 | .ath2 => .ch2))
      (match r with
        | .requested => []
        | .canceled => ["-1"]
        | .denied => ["0"]
        | .accepted none => ["1"]
        | .accepted (some false) => ["1", "0"]
        | .accepted (some true) => ["1", "1"])
  | .breakClock seconds ended =>
    .tagged "brk" (renderNat seconds :: if ended then ["stopEnd"] else [])
  | .roundWinners a b c =>
    .tagged "wrd" ["rd1", renderNat a, "rd2", renderNat b, "rd3", renderNat c]
  | .matchWinner n sc =>
    .tagged "wmh" (match sc with | none => [n] | some v => [n, v])
  | .provisionalWinner side => .tagged "win" [side]
  | .clock seconds flag =>
    .tagged "clk" (renderNat seconds ::
      match flag with
      | none => []
      | some .start => ["start"]
      | some .stop => ["stop"])
  | .round n => .tagged "rnd" [renderNat n]
  | .matchLoaded => .tagged "pre" ["FightLoaded"]
  | .athleteInfo a x y z =>
    .tagged (tagStr (match a with | .one => .at1 | .two => .at2)) [x, y, z]
  | .matchMeta fields => .tagged "mch" fields
  | .subScore a r v =>
    .tagged (tagStr (match a, r with
      | .one, .r1 => .s11 | .two, .r1 => .s21
      | .one, .r2 => .s12 | .two, .r2 => .s22
      | .one, .r3 => .s13 | .two, .r3 => .s23)) [renderNat v]
  | .score a v => .tagged (tagStr (match a with | .one => .sc1 | .two => .sc2)) [renderNat v]
  | .advantageVote v => .tagged "avt" [renderNat v]
  | .ready => .tagged "rdy" ["FightReady"]
  | .connection port c => .connNotice port c

/-- Split a character list on a separator character; adjacent separators
and boundary separators yield empty groups, like splitting a string. -/
def splitOnChar (sep : Char) : List Char → List (List Char)
  | [] => [[]]
  | c :: cs =>
    if c = sep then [] :: splitOnChar sep cs
    else
      match splitOnChar sep cs with
      | [] => [[c]]
      | g :: gs => (c :: g) :: gs

/-- Split a string on a separator character, as ;- or space-delimited
wire text is split. -/
def splitStr (sep : Char) (s : String) : List String :=
  (splitOnChar sep s.data).map fun g => ⟨g⟩

/-- Modelled from the spec: recognition of the plain-text connection
notices, which are not tag-prefixed. -/
def parseConn (t : String) : Option (Nat × Bool) :=
  match splitStr ' ' t with
  | ["Udp", "Port", np, st] =>
    match parseNat np with
    | some p =>
      if st = "connected" then some (p, true) else
      if st = "disconnected" then some (p, false) else none
    | none => none
  | _ => none

/-- A token at which a new statement begins during the greedy scan. -/
def startsStatement (t : String) : Bool :=
  (parseTag t).isSome || (parseConn t).isSome

/-- Emit the statement currently being accumulated, if any; its fields
were accumulated in reverse. -/
def flushCur : Option (String × List String) → List Statement
  | none => []
  | some (t, revFields) => [.tagged t revFields.reverse]

/-- Modelled from the spec: the greedy left-to-right scan — a statement
begins at a recognized tag and consumes fields until the next recognized
tag or end of payload; connection notices are matched as a special kind;
unrecognized leading tokens are dropped. -/
def tokenizeGo : List String → Option (String × List String) → List Statement
  | [], cur => flushCur cur
  | tok :: rest, cur =>
    if (parseTag tok).isSome then
      flushCur cur ++ tokenizeGo rest (some (tok, []))
    else
      match parseConn tok with
      | some (p, c) => flushCur cur ++ .connNotice p c :: tokenizeGo rest none
      | none =>
        match cur with
        | some (t, fs) => tokenizeGo rest (some (t, tok :: fs))
        | none => tokenizeGo rest none

/-- The greedy scan started with no statement under accumulation. -/
def tokenizeTokens (ts : List String) : List Statement := tokenizeGo ts none

/-- Modelled from the spec: the tokenizer — split the payload on the
semicolon delimiter, discard the trailing empty field produced by a
terminal semicolon, and run the greedy scan. -/
def tokenize (payload : String) : List Statement :=
  let toks := splitStr ';' payload
  tokenizeTokens (match toks.getLast? with
    | some "" => toks.dropLast
    | _ => toks)

/-- Modelled from the spec: applying one tokenized statement to the
state — a decode failure leaves the state unchanged and reports the
error as a diagnostic; a decoded event is reduced. -/
def applyStatement (s : MatchState) (st : Statement) : MatchState × Option DecodeError :=
  match decode st with
  | .ok e => (reduce s e, none)
  | .error err => (s, some err)

/-- The stored score fields of a match state: per-round sub-scores and
the two totals. -/
def scoresOf (s : MatchState) : List Nat :=
  [s.s11, s.s21, s.s12, s.s22, s.s13, s.s23, s.sc1, s.sc2]

/-- Whether an event is a Score or SubScore snapshot. -/
def isScoreEvent : StreamEvent → Bool
  | .subScore _ _ _ => true
  | .score _ _ => true
  | _ => false

/-- Whether an event is one of the snapshot statements named by the
idempotence property: Score, WarningGamJeom or RoundWinners. -/
def isSnapshot : StreamEvent → Bool
  | .score _ _ => true
  | .warningGamJeom _ _ => true
  | .roundWinners _ _ _ => true
  | _ => false

/-- A stored clock value is a well-formed normalized duration: its
canonical rendering parses back to itself as a clock field. -/
def clockWellFormed (n : Nat) : Prop := parseClock (renderNat n) = some n

/-- Number of pending challenges a single party status contributes. -/
def pendingCount (c : ChallengeStatus) : Nat :=
  if c = .pending then 1 else 0

/-- Modelled from the spec: the MatchState invariant — round-winner
array of length exactly 3, non-negative scores and warning counts, at
most one pending challenge per party, and well-formed normalized clock
values. -/
def MatchStateInv (s : MatchState) : Prop :=
  s.roundWinners.length = 3 ∧
  0 ≤ s.sc1 ∧ 0 ≤ s.sc2 ∧ 0 ≤ s.s11 ∧ 0 ≤ s.s21 ∧ 0 ≤ s.s12 ∧
  0 ≤ s.s22 ∧ 0 ≤ s.s13 ∧ 0 ≤ s.s23 ∧ 0 ≤ s.wg1 ∧ 0 ≤ s.wg2 ∧
  pendingCount s.ch0 ≤ 1 ∧ pendingCount s.ch1 ≤ 1 ∧ pendingCount s.ch2 ≤ 1 ∧
  clockWellFormed s.clockSeconds ∧ clockWellFormed s.breakSeconds

/-- State of the App component relevant to the greet flow: the greeting
message and the console error log (from src/ui/src/App.tsx). -/
structure AppState where
  greetMsg : String
  errorLog : List String
deriving DecidableEq

/-- The greet handler of the App component: on a successful invoke the
message is stored via setGreetMsg; on a rejected invoke the error is
caught and logged and the message is untouched (src/ui/src/App.tsx). -/
def greet (s : AppState) (result : Except String String) : AppState :=
  match result with
  | .ok message => { s with greetMsg := message }
  | .error e => { s with errorLog := s.errorLog ++ ["Error calling greet: " ++ e] }

/-- Rendered shape of the Sidebar component: root class, which blocks
are present, and the toggle button attributes
(from src/ui/src/components/Sidebar.tsx). -/
structure SidebarRender where
  rootClass : String
  rendersTitle : Bool
  rendersToggle : Bool
  toggleLabel : String
  toggleTitle : String
  rendersContent : Bool
  rendersHotkeyHint : Bool
deriving DecidableEq

/-- The render of the Sidebar component as a function of its isExpanded prop
(src/ui/src/components/Sidebar.tsx). -/
def Sidebar (isExpanded : Bool) : SidebarRender where
  rootClass := "sidebar " ++ (if isExpanded then "expanded" else "collapsed")
  rendersTitle := isExpanded
  rendersToggle := true
  toggleLabel := if isExpanded then "◀" else "▶"
  toggleTitle := if isExpanded then "Collapse sidebar" else "Expand sidebar"
  rendersContent := isExpanded
  rendersHotkeyHint := isExpanded

theorem digitsVal_append (l : List Nat) (d : Nat) :
    digitsVal (l ++ [d]) = digitsVal l * 10 + d := by
  simp [digitsVal, List.foldl_append]

theorem natDigitsRevAux_ne_nil (fuel n : Nat) : natDigitsRevAux fuel n ≠ [] := by
  cases fuel with
  | zero => simp [natDigitsRevAux]
  | succ f =>
    by_cases h : n < 10 <;> simp [natDigitsRevAux, h]

theorem natDigitsRevAux_lt (fuel n : Nat) : ∀ d ∈ natDigitsRevAux fuel n, d < 10 := by
  induction fuel generalizing n with
  | zero =>
    intro d hd
    simp [natDigitsRevAux] at hd
    omega
  | succ f ih =>
    intro d hd
    by_cases h : n < 10
    · simp [natDigitsRevAux, h] at hd
      omega
    · simp [natDigitsRevAux, h] at hd
      rcases hd with hd | hd
      · omega
      · exact ih _ d hd

theorem natDigitsRevAux_val (fuel n : Nat) (h : n ≤ fuel) :
    digitsVal (natDigitsRevAux fuel n).reverse = n := by
  induction fuel generalizing n with
  | zero =>
    have hn : n = 0 := by omega
    subst hn
    simp [natDigitsRevAux, digitsVal]
  | succ f ih =>
    by_cases hlt : n < 10
    · simp [natDigitsRevAux, hlt, digitsVal]
    · have hdiv : n / 10 < n := Nat.div_lt_self (by omega) (by omega)
      have hfuel : n / 10 ≤ f := by omega
      simp only [natDigitsRevAux, hlt, if_false, List.reverse_cons]
      rw [digitsVal_append, ih _ hfuel]
      have := Nat.div_add_mod n 10
      omega

theorem digitsVal_natDigitsRev (n : Nat) : digitsVal (natDigitsRev n).reverse = n :=
  natDigitsRevAux_val n n (Nat.le_refl n)

theorem charDigit_digitChar (d : Nat) (h : d < 10) : charDigit (digitChar d) = some d := by
  interval_cases d <;> decide

theorem digitChar_ne_colon (d : Nat) (h : d < 10) : (digitChar d != ':') = true := by
  interval_cases d <;> decide

theorem parseDigitsAux_digits (ds : List Nat) (acc : Nat) (h : ∀ d ∈ ds, d < 10) :
    parseDigitsAux (ds.map digitChar) acc = some (ds.foldl (fun a d => a * 10 + d) acc) := by
  induction ds generalizing acc with
  | nil => rfl
  | cons d ds ih =>
    have hd : d < 10 := h d (by simp)
    have hds : ∀ x ∈ ds, x < 10 := fun x hx => h x (by simp [hx])
    simp only [List.map_cons, parseDigitsAux, charDigit_digitChar d hd, List.foldl_cons]
    exact ih _ hds

theorem parseDigits_eq_aux (cs : List Char) (h : cs ≠ []) :
    parseDigits cs = parseDigitsAux cs 0 := by
  cases cs with
  | nil => exact absurd rfl h
  | cons c cs => rfl

theorem digitsChars_ne_nil (n : Nat) : digitsChars n ≠ [] := by
  intro h
  have := natDigitsRevAux_ne_nil n n
  simp [digitsChars, natDigitsRev] at h
  exact this h

theorem parseNat_renderNat (n : Nat) : parseNat (renderNat n) = some n := by
  have hne : digitsChars n ≠ [] := digitsChars_ne_nil n
  have hlt : ∀ d ∈ (natDigitsRev n).reverse, d < 10 := by
    intro d hd
    exact natDigitsRevAux_lt n n d (List.mem_reverse.mp hd)
  show parseDigits (digitsChars n) = some n
  rw [parseDigits_eq_aux _ hne]
  show parseDigitsAux (((natDigitsRev n).reverse).map digitChar) 0 = some n
  rw [parseDigitsAux_digits _ 0 hlt]
  exact congrArg some (digitsVal_natDigitsRev n)

theorem takeWhile_of_all {α : Type} (p : α → Bool) (l : List α) (h : ∀ a ∈ l, p a = true) :
    l.takeWhile p = l ∧ l.dropWhile p = [] := by
  induction l with
  | nil => simp
  | cons a as ih =>
    have ha : p a = true := h a (by simp)
    have has : ∀ x ∈ as, p x = true := fun x hx => h x (by simp [hx])
    obtain ⟨h1, h2⟩ := ih has
    simp [List.takeWhile, List.dropWhile, ha, h1, h2]

theorem digitsChars_no_colon (n : Nat) : ∀ c ∈ digitsChars n, (c != ':') = true := by
  intro c hc
  simp only [digitsChars, List.mem_map] at hc
  obtain ⟨d, hd, rfl⟩ := hc
  exact digitChar_ne_colon d (natDigitsRevAux_lt n n d (List.mem_reverse.mp hd))

theorem parseClock_renderNat (n : Nat) : parseClock (renderNat n) = some n := by
  obtain ⟨h1, h2⟩ := takeWhile_of_all (fun c => c != ':') (digitsChars n) (digitsChars_no_colon n)
  have hne : digitsChars n ≠ [] := digitsChars_ne_nil n
  have hlt : ∀ d ∈ (natDigitsRev n).reverse, d < 10 := by
    intro d hd
    exact natDigitsRevAux_lt n n d (List.mem_reverse.mp hd)
  show (match (digitsChars n).dropWhile (fun c => c != ':') with
    | [] => parseDigits ((digitsChars n).takeWhile (fun c => c != ':'))
    | _ :: rest =>
      match parseDigits ((digitsChars n).takeWhile (fun c => c != ':')), parseDigits rest with
      | some m, some ss => some (m * 60 + ss)
      | _, _ => none) = some n
  rw [h1, h2]
  rw [parseDigits_eq_aux _ hne]
  show parseDigitsAux (((natDigitsRev n).reverse).map digitChar) 0 = some n
  rw [parseDigitsAux_digits _ 0 hlt]
  exact congrArg some (digitsVal_natDigitsRev n)

theorem startsStatement_false_parseTag (t : String) (h : startsStatement t = false) :
    (parseTag t).isSome = false := by
  simp only [startsStatement, Bool.or_eq_false_iff] at h
  exact h.1

theorem startsStatement_false_parseConn (t : String) (h : startsStatement t = false) :
    parseConn t = none := by
  simp only [startsStatement, Bool.or_eq_false_iff] at h
  cases hc : parseConn t with
  | none => rfl
  | some v =>
    rw [hc] at h
    simp at h

theorem tokenizeGo_accum (fs : List String) :
    ∀ (t : String) (acc rest : List String),
      (∀ f ∈ fs, startsStatement f = false) →
      (rest = [] ∨ ∃ r rs, rest = r :: rs ∧ startsStatement r = true) →
      tokenizeGo (fs ++ rest) (some (t, acc)) =
        .tagged t (acc.reverse ++ fs) :: tokenizeTokens rest := by
  induction fs with
  | nil =>
    intro t acc rest _ hrest
    rcases hrest with rfl | ⟨r, rs, rfl, hr⟩
    · simp [tokenizeGo, flushCur, tokenizeTokens]
    · by_cases hpt : (parseTag r).isSome
      · simp [tokenizeGo, tokenizeTokens, flushCur, hpt]
      · have hpc : (parseConn r).isSome = true := by
          simp only [startsStatement, Bool.or_eq_true] at hr
          rcases hr with hr | hr
          · exact absurd hr hpt
          · exact hr
        cases hconn : parseConn r with
        | none =>
          rw [hconn] at hpc
          simp at hpc
        | some pc =>
          simp [tokenizeGo, tokenizeTokens, flushCur, hpt, hconn]
  | cons f fs ih =>
    intro t acc rest hfs hrest
    have hf : startsStatement f = false := hfs f (by simp)
    have hpt : (parseTag f).isSome = false := startsStatement_false_parseTag f hf
    have hpc : parseConn f = none := startsStatement_false_parseConn f hf
    have step : tokenizeGo ((f :: fs) ++ rest) (some (t, acc)) =
        tokenizeGo (fs ++ rest) (some (t, f :: acc)) := by
      simp [tokenizeGo, hpt, hpc]
    rw [step, ih t (f :: acc) rest (fun x hx => hfs x (by simp [hx])) hrest]
    simp

/-- C8: the greedy left-to-right scan partitions a payload into
statements: a statement begins at a recognized registry tag and carries
exactly the semicolon-delimited fields up to the next recognized tag or
the end of the payload, unrecognized leading tokens are dropped with
scanning resuming at the next recognized tag, and the concatenated
payload wg1;1;wg2;2; splits into two statements. -/
theorem c8_tokenizer_greedy :
    (∀ (t : String) (fs rest : List String),
        (parseTag t).isSome = true →
        (∀ f ∈ fs, startsStatement f = false) →
        (rest = [] ∨ ∃ r rs, rest = r :: rs ∧ startsStatement r = true) →
        tokenizeTokens (t :: (fs ++ rest)) = .tagged t fs :: tokenizeTokens rest) ∧
    (∀ (junk : String) (ts : List String), startsStatement junk = false →
        tokenizeTokens (junk :: ts) = tokenizeTokens ts) ∧
    tokenize "wg1;1;wg2;2;" = [.tagged "wg1" ["1"], .tagged "wg2" ["2"]] := by
  refine ⟨?_, ?_, by decide⟩
  · intro t fs rest hpt hfs hrest
    have step : tokenizeTokens (t :: (fs ++ rest)) =
        tokenizeGo (fs ++ rest) (some (t, [])) := by
      simp [tokenizeTokens, tokenizeGo, hpt, flushCur]
    rw [step, tokenizeGo_accum fs t [] rest hfs hrest]
    simp
  · intro junk ts hj
    have hpt : (parseTag junk).isSome = false := startsStatement_false_parseTag junk hj
    have hpc : parseConn junk = none := startsStatement_false_parseConn junk hj
    simp [tokenizeTokens, tokenizeGo, hpt, hpc]

/-- Witness for C8: a concrete greedy-scan split with a tag statement
followed by a further statement. -/
theorem c8_tokenizer_greedy_witness :
    tokenizeTokens ["clk", "2:00", "rnd", "1"] =
      .tagged "clk" ["2:00"] :: tokenizeTokens ["rnd", "1"] :=
  c8_tokenizer_greedy.1 "clk" ["2:00"] ["rnd", "1"] (by decide)
    (by decide) (Or.inr ⟨"rnd", ["1"], rfl, by decide⟩)

/-- C1 counterexample: a MatchLoaded event, which is neither Score nor
SubScore, changes the stored score fields (it discards the state and
starts a fresh one), so stored scores do not change only on Score or
SubScore events. -/
theorem c1_counterexample :
    scoresOf (reduce { initialState with sc1 := 3 } .matchLoaded) ≠
      scoresOf { initialState with sc1 := 3 } ∧
    isScoreEvent .matchLoaded = false := by
  constructor
  · decide
  · rfl

/-- C1 (amended): applying the reducer to any Point event leaves all
stored score fields unchanged, and stored scores change only when a
Score or SubScore event is applied or when MatchLoaded replaces the
whole state with a fresh one. -/
theorem c1_point_preserves_scores :
    (∀ (s : MatchState) (a : Athlete) (v : Nat),
        scoresOf (reduce s (.point a v)) = scoresOf s) ∧
    (∀ (s : MatchState) (e : StreamEvent),
        scoresOf (reduce s e) ≠ scoresOf s →
          isScoreEvent e = true ∨ e = .matchLoaded) := by
  constructor
  · intro s a v
    rfl
  · intro s e h
    cases e with
    | point a v => exact absurd rfl h
    | hitLevel a v => cases a <;> exact absurd rfl h
    | warningGamJeom a n => cases a <;> exact absurd rfl h
    | injury t seconds flag => cases t <;> exact absurd rfl h
    | challenge p r => cases p <;> exact absurd rfl h
    | breakClock seconds ended => exact absurd rfl h
    | roundWinners a b c => exact absurd rfl h
    | matchWinner n sc => exact absurd rfl h
    | provisionalWinner side => exact absurd rfl h
    | clock seconds flag => exact absurd rfl h
    | round n => exact absurd rfl h
    | matchLoaded => exact Or.inr rfl
    | athleteInfo a x y z => cases a <;> exact absurd rfl h
    | matchMeta fields => exact absurd rfl h
    | subScore a r v => exact Or.inl rfl
    | score a v => exact Or.inl rfl
    | advantageVote v => exact absurd rfl h
    | ready => exact absurd rfl h
    | connection port c => exact absurd rfl h

/-- Witness for C1 (amended): a concrete score event that does change
the stored scores is classified as a Score/SubScore event. -/
theorem c1_point_preserves_scores_witness :
    isScoreEvent (.score .one 5) = true ∨ (StreamEvent.score .one 5) = .matchLoaded :=
  c1_point_preserves_scores.2 initialState (.score .one 5) (by decide)

/-- C2: the reducer is a deterministic pure function — the final state
of folding an ordered event sequence over the fresh initial state
depends only on the event sequence. -/
theorem c2_reducer_deterministic :
    ∀ (evs₁ evs₂ : List StreamEvent), evs₁ = evs₂ → runEvents evs₁ = runEvents evs₂ := by
  intro evs₁ evs₂ h
  rw [h]

/-- Witness for C2: replaying a concrete event sequence reproduces the
same final state. -/
theorem c2_reducer_deterministic_witness :
    runEvents [.round 1, .score .one 3] = runEvents [.round 1, .score .one 3] :=
  c2_reducer_deterministic [.round 1, .score .one 3] [.round 1, .score .one 3] rfl

/-- C3: the snapshot statements Score, WarningGamJeom and RoundWinners
are idempotent — applying the identical event a second time leaves the
match state unchanged after the first application. -/
theorem c3_snapshot_idempotent :
    ∀ (s : MatchState) (e : StreamEvent), isSnapshot e = true →
      reduce (reduce s e) e = reduce s e := by
  intro s e h
  cases e with
  | score a v => cases a <;> rfl
  | warningGamJeom a n => cases a <;> rfl
  | roundWinners a b c => rfl
  | _ => simp [isSnapshot] at h

/-- Witness for C3: replaying a concrete score snapshot a second time
leaves the state unchanged. -/
theorem c3_snapshot_idempotent_witness :
    reduce (reduce initialState (.score .one 3)) (.score .one 3) =
      reduce initialState (.score .one 3) :=
  c3_snapshot_idempotent initialState (.score .one 3) rfl

/-- C4: decoding the canonical serialized form of every stream event of
the tag registry yields exactly that event (wire-format round-trip). -/
theorem c4_decode_serialize_roundTrip :
    ∀ e : StreamEvent, decode (serialize e) = .ok e := by
  intro e
  cases e with
  | point a v =>
    cases a <;> simp [serialize, decode, parseTag, tagStr, decodeTagged, decode1Nat, parseNat_renderNat]
  | hitLevel a v =>
    cases a <;> simp [serialize, decode, parseTag, tagStr, decodeTagged, decode1Nat, parseNat_renderNat]
  | warningGamJeom a n =>
    cases a <;> simp [serialize, decode, parseTag, tagStr, decodeTagged, decode1Nat, parseNat_renderNat]
  | injury t seconds flag =>
    cases t <;> rcases flag with _ | f <;> try cases f
    all_goals simp [serialize, decode, parseTag, tagStr, decodeTagged, decodeClockWith,
      injuryFlagOf, parseClock_renderNat]
  | challenge p r =>
    cases p <;> rcases r with _ | _ | _ | ⟨_ | b⟩ <;> try cases b
    all_goals simp [serialize, decode, parseTag, tagStr, decodeTagged, decodeChallenge]
  | breakClock seconds ended =>
    cases ended <;> simp [serialize, decode, parseTag, tagStr, decodeTagged, parseClock_renderNat]
  | roundWinners a b c =>
    simp [serialize, decode, parseTag, tagStr, decodeTagged, parseNat_renderNat]
  | matchWinner n sc =>
    rcases sc with _ | v <;> simp [serialize, decode, parseTag, tagStr, decodeTagged]
  | provisionalWinner side =>
    simp [serialize, decode, parseTag, tagStr, decodeTagged]
  | clock seconds flag =>
    rcases flag with _ | f <;> try cases f
    all_goals simp [serialize, decode, parseTag, tagStr, decodeTagged, decodeClockWith,
      clockFlagOf, parseClock_renderNat]
  | round n =>
    simp [serialize, decode, parseTag, tagStr, decodeTagged, decode1Nat, parseNat_renderNat]
  | matchLoaded => rfl
  | athleteInfo a x y z =>
    cases a <;> simp [serialize, decode, parseTag, tagStr, decodeTagged]
  | matchMeta fields =>
    simp [serialize, decode, parseTag, tagStr, decodeTagged]
  | subScore a r v =>
    cases a <;> cases r <;>
      simp [serialize, decode, parseTag, tagStr, decodeTagged, decode1Nat, parseNat_renderNat]
  | score a v =>
    cases a <;> simp [serialize, decode, parseTag, tagStr, decodeTagged, decode1Nat, parseNat_renderNat]
  | advantageVote v =>
    simp [serialize, decode, parseTag, tagStr, decodeTagged, decode1Nat, parseNat_renderNat]
  | ready => rfl
  | connection port c => rfl

/-- C5: a RoundWinners statement is accepted only in full — a complete
wrd statement decodes to a RoundWinners event whose reduction replaces
the entire 3-element round-winner array, while every partial wrd
statement (fewer than the full six rd1/rd2/rd3 marker and value fields)
is rejected with ArityMismatch and leaves the prior state unchanged. -/
theorem c5_roundWinners_full_array :
    ∀ (s : MatchState) (fields : List String) (a b c : Nat),
      fields.length < 6 →
      applyStatement s (.tagged "wrd" fields) = (s, some .arityMismatch) ∧
      decode (.tagged "wrd" ["rd1", renderNat a, "rd2", renderNat b, "rd3", renderNat c]) =
        .ok (.roundWinners a b c) ∧
      (reduce s (.roundWinners a b c)).roundWinners = [a, b, c] := by
  intro s fields a b c h
  refine ⟨?_, ?_, rfl⟩
  · have hd : decodeTagged .wrd fields = .error .arityMismatch := by
      rcases fields with _ | ⟨f1, _ | ⟨f2, _ | ⟨f3, _ | ⟨f4, _ | ⟨f5, _ | ⟨f6, rest⟩⟩⟩⟩⟩⟩
      · rfl
      · rfl
      · rfl
      · rfl
      · rfl
      · rfl
      · simp only [List.length_cons] at h
        omega
    simp [applyStatement, decode, parseTag, hd]
  · simp [decode, parseTag, decodeTagged, parseNat_renderNat]

/-- Witness for C5: a concrete partial wrd statement is rejected with
ArityMismatch and the state is unchanged, while a full statement is
accepted and replaces the array. -/
theorem c5_roundWinners_full_array_witness :
    applyStatement initialState (.tagged "wrd" ["rd1", "2"]) =
      (initialState, some .arityMismatch) ∧
    decode (.tagged "wrd" ["rd1", renderNat 1, "rd2", renderNat 2, "rd3", renderNat 0]) =
      .ok (.roundWinners 1 2 0) ∧
    (reduce initialState (.roundWinners 1 2 0)).roundWinners = [1, 2, 0] :=
  c5_roundWinners_full_array initialState ["rd1", "2"] 1 2 0 (by decide)

/-- C6: an injury event addressed to the unidentified slot ij0 leaves
both athlete injury slots (clock and visibility) unchanged. -/
theorem c6_ij0_frame :
    ∀ (s : MatchState) (seconds : Nat) (flag : Option InjuryFlag),
      (reduce s (.injury .unid seconds flag)).inj1 = s.inj1 ∧
      (reduce s (.injury .unid seconds flag)).inj2 = s.inj2 := by
  intro s seconds flag
  exact ⟨rfl, rfl⟩

theorem pendingCount_le_one (c : ChallengeStatus) : pendingCount c ≤ 1 := by
  unfold pendingCount
  split <;> omega

theorem matchStateInv_iff (s : MatchState) :
    MatchStateInv s ↔ s.roundWinners.length = 3 := by
  unfold MatchStateInv
  simp [pendingCount_le_one, clockWellFormed, parseClock_renderNat, Nat.zero_le]

/-- C7: the MatchState invariant holds of the initial state and is
preserved by every reducer application. -/
theorem c7_matchState_invariant :
    MatchStateInv initialState ∧
    ∀ (s : MatchState) (e : StreamEvent), MatchStateInv s → MatchStateInv (reduce s e) := by
  constructor
  · rw [matchStateInv_iff]
    rfl
  · intro s e h
    rw [matchStateInv_iff] at h ⊢
    cases e <;> try exact h
    case hitLevel a v => cases a <;> exact h
    case warningGamJeom a n => cases a <;> exact h
    case injury t seconds flag => cases t <;> exact h
    case challenge p r => cases p <;> exact h
    case roundWinners a b c => rfl
    case matchLoaded => rfl
    case athleteInfo a x y z => cases a <;> exact h
    case subScore a r v => cases a <;> cases r <;> exact h
    case score a v => cases a <;> exact h

/-- Witness for C7: the invariant holds after a concrete reduction from
the initial state. -/
theorem c7_matchState_invariant_witness :
    MatchStateInv (reduce initialState (.round 2)) :=
  c7_matchState_invariant.2 initialState (.round 2) c7_matchState_invariant.1

/-- C9: in the greet handler of the App component, a rejected invoke is
caught and logged and leaves greetMsg unchanged; the displayed greeting
is updated only by a successful invocation. -/
theorem c9_greet_error_path :
    ∀ (s : AppState) (err msg : String),
      (greet s (.error err)).greetMsg = s.greetMsg ∧
      (greet s (.error err)).errorLog = s.errorLog ++ ["Error calling greet: " ++ err] ∧
      (greet s (.ok msg)).greetMsg = msg := by
  intro s err msg
  exact ⟨rfl, rfl, rfl⟩

/-- C10: the Sidebar component renders the content block, the title and
the hotkey hint exactly when isExpanded is true, renders the toggle
button unconditionally with the collapse label exactly when isExpanded
is true, and sets the root class accordingly. -/
theorem c10_sidebar_render :
    ∀ b : Bool,
      ((Sidebar b).rendersContent = true ↔ b = true) ∧
      ((Sidebar b).rendersTitle = true ↔ b = true) ∧
      ((Sidebar b).rendersHotkeyHint = true ↔ b = true) ∧
      (Sidebar b).rendersToggle = true ∧
      ((Sidebar b).toggleLabel = "◀" ↔ b = true) ∧
      ((Sidebar b).toggleLabel = "▶" ↔ b = false) ∧
      (Sidebar b).rootClass = (if b then "sidebar expanded" else "sidebar collapsed") := by
  intro b
  cases b <;> refine ⟨by simp [Sidebar], by simp [Sidebar], by simp [Sidebar],
    rfl, by simp [Sidebar], by simp [Sidebar], by decide⟩

end ReStrike
